import Mathlib

/-!
Verification of the resume-scoring pipeline of the `resume_analyzer` package.

Texts (resumes, vacancies, raw model responses) are modelled as `List Char`.
JSON values produced by `json.loads` are modelled by the inductive type `Json`;
the library functions `json.loads` and the builtin `float(·)` string coercion
are passed in as explicit function parameters (`jsonLoads`, `pyFloat`), so all
theorems quantify over every possible behaviour of the remote call and of the
parser, exactly as the specification demands.

Sources embedded here:
  * `src/resume_analyzer/llm_interface.py` —
    `LLMInterface.generate_text`, `LLMInterface.analyze_resume`,
    `analyze_with_mock_llm`;
  * `src/resume_analyzer/analyzer.py` —
    `ResumeAnalyzer.analyze_resume`, `ResumeAnalyzer.select_top_candidates`;
  * `src/resume_analyzer/data_generator.py` —
    `DataGenerator.generate_resumes` (the quality-tier distribution).
-/

/-- A parsed JSON value, as returned by the Python call json.loads. -/
inductive Json where
  | null : Json
  | bool (b : Bool) : Json
  | num (q : ℚ) : Json
  | str (s : List Char) : Json
  | arr (xs : List Json) : Json
  | obj (kvs : List (String × Json)) : Json

/-- Python dict read `d.get(k)` / `d[k]` on the association list representing a
`json.loads` object. JSON objects with a repeated key keep the last binding, so
lookup is last-wins. -/
def dictGet : List (String × Json) → String → Option Json
  | [], _ => none
  | (k', v) :: rest, k =>
    match dictGet rest k with
    | some r => some r
    | none => if k' = k then some v else none

/-- Python dict write `d[k] = v` (the key is already present in every use in
the source; writing only replaces the stored value, keys are untouched). -/
def dictSet : List (String × Json) → String → Json → List (String × Json)
  | [], _, _ => []
  | (k', v') :: rest, k, v =>
    (k', if k' = k then v else v') :: dictSet rest k v

/-- Python truthiness (`bool(x)`) of a parsed JSON value: `None`, `False`,
zero, and empty containers/strings are falsy. Used for
`not result.get("justification")` in `ResumeAnalyzer.analyze_resume`. -/
def pyTruthy : Json → Bool
  | Json.null => false
  | Json.bool b => b
  | Json.num q => decide (q ≠ 0)
  | Json.str s => !s.isEmpty
  | Json.arr xs => !xs.isEmpty
  | Json.obj kvs => !kvs.isEmpty

/-- The Python comparison x == "Python" on a parsed JSON value: true only for the exact
string `"Python"`. -/
def isPythonStr : Json → Bool
  | Json.str s => decide (s = "Python".toList)
  | _ => false

/-- The Python substring test `needle in hay` on text. -/
def pyIn (needle : List Char) : List Char → Bool
  | [] => needle.isEmpty
  | c :: rest => needle.isPrefixOf (c :: rest) || pyIn needle rest

/-- Python `str.lower` restricted to the alphabets that occur in the source
(ASCII and Russian Cyrillic); every other character is left unchanged. -/
def pyLowerChar (c : Char) : Char :=
  if 'A' ≤ c ∧ c ≤ 'Z' then Char.ofNat (c.toNat + 32)
  else if 'А' ≤ c ∧ c ≤ 'Я' then Char.ofNat (c.toNat + 32)
  else if c = 'Ё' then 'ё'
  else c

/-- Python `text.lower()`. -/
def pyLower (s : List Char) : List Char := s.map pyLowerChar

/-- The characters stripped by the Python method str.strip. -/
def isPySpace (c : Char) : Bool :=
  c = ' ' || c = '\t' || c = '\n' || c = '\r' || c = '\x0b' || c = '\x0c'

/-- Python `text.strip()`: drop whitespace from both ends. -/
def pyStrip (s : List Char) : List Char :=
  ((s.dropWhile isPySpace).reverse.dropWhile isPySpace).reverse

/-- Model of the call of re.search with pattern `\{.*\}` and re.DOTALL: with a greedy `.*` that may
cross newlines, the regex matches iff the first `'{'` of the text occurs
before the last `'}'`, and the match then runs from that first `'{'` to that
last `'}'` inclusive. -/
def braceSpan (cs : List Char) : Option (List Char) :=
  if cs.any (· = '{') ∧ cs.any (· = '}') then
    if cs.findIdx (· = '{') < cs.length - 1 - cs.reverse.findIdx (· = '}') then
      some ((cs.drop (cs.findIdx (· = '{'))).take
        (cs.length - 1 - cs.reverse.findIdx (· = '}') - cs.findIdx (· = '{') + 1))
    else none
  else none

/-- Source llm_interface.py lines 217-222: the string handed to `json.loads` — the
regex match if there is one, otherwise the whole trimmed response. -/
def extractJson (response : List Char) : List Char :=
  (braceSpan response).getD (pyStrip response)

/-! ## The fallback scorer `analyze_with_mock_llm` (`llm_interface.py` 251-333) -/

/-- The fixed keyword list `key_techs`. -/
def key_techs : List (List Char) :=
  ["python", "django", "flask", "fastapi", "rest", "api",
   "sql", "postgresql", "mysql", "mongodb", "nosql", "redis",
   "docker", "kubernetes", "git", "ci/cd", "linux", "aws", "azure",
   "microservices", "tdd", "unit tests", "pytest", "asyncio"].map String.toList

/-- The keyword-counting loop (`llm_interface.py` 280-283): how many keywords
occur as substrings of the lower-cased resume. -/
def keyword_matches (resume_lower : List Char) : ℕ :=
  key_techs.countP (fun t => pyIn t resume_lower)

/-- The experience heuristic (`llm_interface.py` 286-292). -/
def experience_level (resume_lower : List Char) : ℕ :=
  if pyIn "senior".toList resume_lower
      || pyIn "5+ лет".toList resume_lower
      || pyIn "5 лет".toList resume_lower then 3
  else if pyIn "middle".toList resume_lower
      || pyIn "3+ лет".toList resume_lower
      || pyIn "3 года".toList resume_lower then 2
  else if pyIn "junior".toList resume_lower
      || pyIn "1+ год".toList resume_lower
      || pyIn "2 года".toList resume_lower then 1
  else 0

/-- The education heuristic (`llm_interface.py` 295-299). -/
def education_level (resume_lower : List Char) : ℕ :=
  if pyIn "магистр".toList resume_lower
      || pyIn "высшее".toList resume_lower then 2
  else if pyIn "бакалавр".toList resume_lower
      || pyIn "колледж".toList resume_lower then 1
  else 0

/-- Python `round(x, 2)`. Every score reachable in `analyze_with_mock_llm` is
an integer multiple of `1/4` (so `100*x` is an integer and the float
computation as well as the round-half-to-even tie rule are exact); on such
values `round(x, 2) = x`, which nearest-integer rounding of `100*x` models
faithfully. -/
def round2 (q : ℚ) : ℚ := (Rat.floor (q * 100 + 1/2) : ℚ) / 100

/-- Python `min(a, b)` on numbers. -/
def pyMin (a b : ℚ) : ℚ := if b < a then b else a

/-- Python `max(a, b)` on numbers. -/
def pyMax (a b : ℚ) : ℚ := if b > a then b else a

/-- Decimal digits of a number interpolated by an f-string. -/
def natToChars (n : ℕ) : List Char := (Nat.repr n).toList

/-- The justification sentence built at `llm_interface.py` 312-328. -/
def mock_justification (km mk exp edu : ℕ) : List Char :=
  "Кандидат соответствует ".toList ++ natToChars km ++ " из ".toList
    ++ natToChars mk ++ " ключевых технологий. ".toList
  ++ (if exp = 3 then "Имеет значительный опыт работы (уровень Senior). ".toList
      else if exp = 2 then "Имеет средний опыт работы (уровень Middle). ".toList
      else if exp = 1 then "Имеет небольшой опыт работы (уровень Junior). ".toList
      else "Опыт работы не указан или минимален. ".toList)
  ++ (if edu = 2 then "Имеет высшее образование или степень магистра. ".toList
      else if edu = 1 then "Имеет степень бакалавра или образование колледжа. ".toList
      else "Информация об образовании отсутствует. ".toList)

/-- The result dictionary of the fallback scorer, as a record. -/
structure MockAnalysis where
  score : ℚ
  justification : List Char
  deriving DecidableEq

/-- The function analyze_with_mock_llm (llm_interface.py 251-333): deterministic
keyword/heuristic scoring. The lower-cased vacancy is computed (line 269) but
never read afterwards. -/
def analyze_with_mock_llm (resume_text vacancy_text : List Char) : MockAnalysis :=
  let resume_lower := pyLower resume_text
  let _vacancy_lower := pyLower vacancy_text
  let km := keyword_matches resume_lower
  let exp := experience_level resume_lower
  let edu := education_level resume_lower
  let max_keywords := key_techs.length
  let keyword_score : ℚ := ((km : ℚ) / (max_keywords : ℚ)) * 6
  let experience_score : ℚ := (exp : ℚ)
  let education_score : ℚ := (edu : ℚ) / 2
  let total_score := keyword_score + experience_score + education_score
  { score := round2 (pyMin (pyMax total_score 0) 10),
    justification := mock_justification km max_keywords exp edu }

/-- The dictionary literal returned at `llm_interface.py` 330-333. -/
def mockDict (resume_text vacancy_text : List Char) : List (String × Json) :=
  [("score", Json.num (analyze_with_mock_llm resume_text vacancy_text).score),
   ("justification", Json.str (analyze_with_mock_llm resume_text vacancy_text).justification)]


/-! ## The primary path `LLMInterface.analyze_resume` (`llm_interface.py` 179-248) -/

/-- The method LLMInterface.analyze_resume (llm_interface.py 211-248), with the raw
text of the remote response and the behaviours of `json.loads` and of the
`float` string coercion passed in as parameters.

Whenever `json.loads` succeeds on something other than an object, the code
falls through to `analyze_with_mock_llm` as well: either the "score not in
result" membership test succeeds or fails on a non-dict (list/str), and then
the subscript result["score"] raises `TypeError`, which the outer `except Exception`
turns into the fallback result; membership on a number/`None` raises
`TypeError` directly. So every non-object parse ends in the fallback, which
the last two match arms fold together. -/
def llmAnalyzeResume (jsonLoads : List Char → Option Json)
    (pyFloat : List Char → Option ℚ)
    (response resume_text vacancy_text : List Char) : List (String × Json) :=
  match jsonLoads (extractJson response) with
  | some (Json.obj kvs) =>
    match dictGet kvs "score", dictGet kvs "justification" with
    | some s, some _ =>
      (match s with
       | Json.str t =>
         (match pyFloat t with
          | some q => dictSet kvs "score" (Json.num q)
          | none => mockDict resume_text vacancy_text)
       | _ => kvs)
    | _, _ => mockDict resume_text vacancy_text
  | _ => mockDict resume_text vacancy_text

/-! ## `ResumeAnalyzer.analyze_resume` (`analyzer.py` 34-82) -/

/-- Observation helper: a `justification` field is present, truthy, and not
the `"Python"` placeholder — the conjunction of the last three disjuncts of
the acceptance test of `analyzer.py` 60-63. -/
def justificationOk (d : List (String × Json)) : Bool :=
  match dictGet d "justification" with
  | some j => pyTruthy j && !isPythonStr j
  | none => false

/-- The field/placeholder check of `analyzer.py` lines 60-65 applied to the
result coming back from the LLM interface: the result is kept iff "score"
is present, "justification" is present, truthy and not "Python"; on
failure the method calls `_fallback_analysis`, which is
`analyze_with_mock_llm` again. -/
def validateResult (result : List (String × Json))
    (resume_text vacancy_text : List Char) : List (String × Json) :=
  if (dictGet result "score").isSome && justificationOk result then result
  else mockDict resume_text vacancy_text

/-- The method ResumeAnalyzer.analyze_resume (analyzer.py 34-82): the primary call
followed by the validation gate. The 3-second `time.sleep` has no effect on
the returned value and is not modelled. -/
def analyzerAnalyzeResume (jsonLoads : List Char → Option Json)
    (pyFloat : List Char → Option ℚ)
    (response resume_text vacancy_text : List Char) : List (String × Json) :=
  validateResult (llmAnalyzeResume jsonLoads pyFloat response resume_text vacancy_text)
    resume_text vacancy_text

/-- Observation helper: the `score` field when it is a JSON number. -/
def getScoreNum (d : List (String × Json)) : Option ℚ :=
  match dictGet d "score" with
  | some (Json.num q) => some q
  | _ => none

/-- Observation helper: whether the `score` field is the JSON `null`. -/
def scoreFieldIsNull (d : List (String × Json)) : Bool :=
  match dictGet d "score" with
  | some Json.null => true
  | _ => false

/-! ## `LLMInterface.generate_text` (`llm_interface.py` 55-102) -/

/-- What one attempt of the retry loop yields: the trimmed message content if
the call returned a response with choices and non-`None` content, `[]` for an
exception, an empty choice list, `None` content, or whitespace-only content
(all of which fall through to the backoff sleep in the source). -/
def attemptText (api : ℕ → Option (List Char)) (attempt : ℕ) : List Char :=
  match api attempt with
  | some t => pyStrip t
  | none => []

/-- The observable trace of one `generate_text` call: returned text, number
of attempts actually made, and the backoff waits slept (in order, in
seconds). -/
structure GenResult where
  text : List Char
  calls : ℕ
  waits : List ℚ
  deriving DecidableEq

/-- The `for attempt in range(max_retries)` loop of `generate_text`
(`llm_interface.py` 72-102): a successful attempt returns the stripped text
at once; a failed attempt sleeps `2 ** attempt + random.uniform(0, 1)`
seconds (the sampled jitter values are the parameter `jitter`) and moves on;
an exhausted loop returns the empty string. -/
def generateTextLoop (api : ℕ → Option (List Char)) (jitter : ℕ → ℚ) :
    ℕ → ℕ → GenResult
  | _, 0 => ⟨[], 0, []⟩
  | attempt, remaining + 1 =>
    let stripped := attemptText api attempt
    if stripped.isEmpty then
      let r := generateTextLoop api jitter (attempt + 1) remaining
      ⟨r.text, r.calls + 1, ((2 : ℚ) ^ attempt + jitter attempt) :: r.waits⟩
    else ⟨stripped, 1, []⟩

/-- The method LLMInterface.generate_text (llm_interface.py 55-102). -/
def generateText (api : ℕ → Option (List Char)) (jitter : ℕ → ℚ)
    (max_retries : ℕ) : GenResult :=
  generateTextLoop api jitter 0 max_retries

/-! ## `ResumeAnalyzer.select_top_candidates` (`analyzer.py` 147-171) -/

/-- One entry of the `results` list handed to the ranking methods. -/
structure CandidateResult where
  file_name : List Char
  score : ℚ
  justification : List Char
  deriving DecidableEq

/-- The sort key order of `sorted` by score descending: `a` may stay before `b` iff `a.score ≥ b.score`. -/
def scoreGe (a b : CandidateResult) : Prop := b.score ≤ a.score

instance : DecidableRel scoreGe :=
  fun a b => inferInstanceAs (Decidable (b.score ≤ a.score))

instance : IsTotal CandidateResult scoreGe := ⟨fun a b => le_total b.score a.score⟩

instance : IsTrans CandidateResult scoreGe := ⟨fun _ _ _ h1 h2 => le_trans h2 h1⟩

/-- The Python stable sort with reverse=True by the score key is the
stable descending sort by score; the output of a stable sort is the unique
permutation that is sorted and keeps ties in input order, realised here by
insertion sort with the non-strict comparison `scoreGe`. -/
def pySortedDesc (results : List CandidateResult) : List CandidateResult :=
  results.insertionSort scoreGe

/-- The method ResumeAnalyzer.select_top_candidates (analyzer.py 147-171). -/
def select_top_candidates (results : List CandidateResult) (top_n : ℕ) :
    List CandidateResult :=
  if results.isEmpty then []
  else (pySortedDesc results).take (min top_n results.length)

/-! ## `DataGenerator.generate_resumes` (`data_generator.py` 76-174) -/

/-- The quality tiers of the data generator. -/
inductive Tier where
  | low : Tier
  | medium : Tier
  | high : Tier
  deriving DecidableEq

/-- The `quality_distribution` dict of `data_generator.py` 98-102:
`int(count * 0.2)` resp. `int(count * 0.5)` truncate the float products; for
every count below `2 ** 52` the float computation agrees with exact rational
arithmetic, i.e. with the natural-number divisions `count / 5` and
`count / 2`. -/
def qualityDistribution (count : ℕ) : ℕ × ℕ × ℕ :=
  (count / 5, count / 2, count - count / 5 - count / 2)

/-- The `quality_levels` list built at `data_generator.py` 107-109 (dict
iteration order is insertion order: high, medium, low), before
`random.shuffle` permutes it in place. -/
def qualityLevels (count : ℕ) : List Tier :=
  List.replicate (qualityDistribution count).1 Tier.high
    ++ List.replicate (qualityDistribution count).2.1 Tier.medium
    ++ List.replicate (qualityDistribution count).2.2 Tier.low

/-! ## Statement-side definitions used by individual claims -/

/-- The combined validation gate of `LLMInterface.analyze_resume` and
`ResumeAnalyzer.analyze_resume`, as a predicate on the outcome of
`json.loads`: the parse produced an object, a `score` field is present and —
when it is a string — coercible by `float`, and a `justification` field is
present, truthy and different from the placeholder `"Python"`. -/
def gate_passes (pyFloat : List Char → Option ℚ) (parsed : Option Json) : Prop :=
  ∃ kvs, parsed = some (Json.obj kvs) ∧
    (∃ s, dictGet kvs "score" = some s ∧
      ∀ t, s = Json.str t → (pyFloat t).isSome = true) ∧
    justificationOk kvs = true

/-- The dictionary an accepted parse is returned as: unchanged, except that a
string-typed `score` is replaced by its `float` coercion
(`llm_interface.py` 232-234). -/
def accepted_result (pyFloat : List Char → Option ℚ)
    (kvs : List (String × Json)) : List (String × Json) :=
  match dictGet kvs "score" with
  | some (Json.str t) =>
    (match pyFloat t with
     | some q => dictSet kvs "score" (Json.num q)
     | none => kvs)
  | _ => kvs

/-- A remote response whose parsed `score` is the out-of-range number 99. -/
def cexResponse : List Char := "\x7b\"score\": 99, \"justification\": \"ok\"\x7d".toList

/-- The behaviour of `json.loads` on `cexResponse` (exactly what the real
parser returns on that text). -/
def cexJsonLoads : List Char → Option Json := fun s =>
  if s = cexResponse then
    some (Json.obj [("score", Json.num 99), ("justification", Json.str "ok".toList)])
  else none

/-- A remote response whose parsed `score` is JSON `null`. -/
def cex2Response : List Char := "\x7b\"score\": null, \"justification\": \"ok\"\x7d".toList

/-- The behaviour of `json.loads` on `cex2Response` (exactly what the real
parser returns on that text). -/
def cex2JsonLoads : List Char → Option Json := fun s =>
  if s = cex2Response then
    some (Json.obj [("score", Json.null), ("justification", Json.str "ok".toList)])
  else none

/-- A remote response carrying a string-typed score `"7.5"`. -/
def cex75Response : List Char := "\x7b\"score\": \"7.5\", \"justification\": \"ok\"\x7d".toList

/-- The behaviour of `json.loads` on `cex75Response` (exactly what the real
parser returns on that text). -/
def cex75JsonLoads : List Char → Option Json := fun s =>
  if s = cex75Response then
    some (Json.obj [("score", Json.str "7.5".toList),
                    ("justification", Json.str "ok".toList)])
  else none

/-- The behaviour of the Python coercion float on the string `"7.5"`. -/
def cex75PyFloat : List Char → Option ℚ := fun s =>
  if s = "7.5".toList then some (15 / 2) else none

/-- A concrete remote behaviour: the first attempt fails, the second returns
`" ok "`. -/
def genApiW : ℕ → Option (List Char) := fun n =>
  if n = 1 then some " ok ".toList else none

/-- A concrete jitter sampling: always half a second. -/
def genJitterW : ℕ → ℚ := fun _ => 1 / 2

/-- The `[3, 9, 9, 1]`-score batch of the ranking example in the specification. -/
def exampleResults : List CandidateResult :=
  [⟨"a".toList, 3, []⟩, ⟨"b".toList, 9, []⟩, ⟨"c".toList, 9, []⟩, ⟨"d".toList, 1, []⟩]

/-! ## Helper lemmas -/

/-- The function `Rat.floor` is the floor of the `FloorRing` instance on `ℚ`. -/
lemma ratFloor_eq (q : ℚ) : Rat.floor q = ⌊q⌋ := rfl

/-- Rounding to two decimals keeps values inside `[0, 10]`. -/
lemma round2_bounds {q : ℚ} (h0 : 0 ≤ q) (h10 : q ≤ 10) :
    0 ≤ round2 q ∧ round2 q ≤ 10 := by
  unfold round2
  rw [ratFloor_eq]
  constructor
  · have hl : (0 : ℤ) ≤ ⌊q * 100 + 1 / 2⌋ := by
      rw [Int.le_floor]
      push_cast
      linarith
    have : (0 : ℚ) ≤ (⌊q * 100 + 1 / 2⌋ : ℚ) := by exact_mod_cast hl
    linarith
  · have hu : ⌊q * 100 + 1 / 2⌋ < 1001 := by
      rw [Int.floor_lt]
      push_cast
      linarith
    have : (⌊q * 100 + 1 / 2⌋ : ℚ) ≤ 1000 := by exact_mod_cast Int.lt_add_one_iff.mp hu
    linarith

/-- The clamp `min(max(t, 0), 10)` of the fallback scorer lands in `[0, 10]`. -/
lemma pyClamp_bounds (t : ℚ) :
    0 ≤ pyMin (pyMax t 0) 10 ∧ pyMin (pyMax t 0) 10 ≤ 10 := by
  unfold pyMin pyMax
  split_ifs <;> constructor <;> linarith

/-- The score of the fallback scorer, written out. -/
lemma mock_score_def (r v : List Char) :
    (analyze_with_mock_llm r v).score =
      round2 (pyMin (pyMax ((keyword_matches (pyLower r) : ℚ) / (key_techs.length : ℚ) * 6
        + (experience_level (pyLower r) : ℚ) + (education_level (pyLower r) : ℚ) / 2) 0) 10) := rfl

/-- The fallback score always lies in `[0, 10]`. -/
lemma mock_score_mem (r v : List Char) :
    0 ≤ (analyze_with_mock_llm r v).score ∧ (analyze_with_mock_llm r v).score ≤ 10 := by
  rw [mock_score_def]
  exact round2_bounds (pyClamp_bounds _).1 (pyClamp_bounds _).2

/-- Every justification sentence of the fallback scorer starts with `'К'`. -/
lemma mock_justification_cons (km mk exp edu : ℕ) :
    ∃ t, mock_justification km mk exp edu = 'К' :: t := ⟨_, rfl⟩

/-- The justification of the fallback scorer starts with `'К'`. -/
lemma mock_llm_justification_cons (r v : List Char) :
    ∃ t, (analyze_with_mock_llm r v).justification = 'К' :: t :=
  mock_justification_cons _ _ _ _

/-- The justification of the fallback scorer is never empty. -/
lemma mock_llm_justification_ne_nil (r v : List Char) :
    (analyze_with_mock_llm r v).justification ≠ [] := by
  obtain ⟨t, ht⟩ := mock_llm_justification_cons r v
  simp [ht]

/-- The justification of the fallback scorer is never the placeholder
`"Python"`. -/
lemma mock_llm_justification_ne_python (r v : List Char) :
    (analyze_with_mock_llm r v).justification ≠ "Python".toList := by
  obtain ⟨t, ht⟩ := mock_llm_justification_cons r v
  rw [ht]
  intro h
  have hh := congrArg (fun l => l.headI) h
  simp at hh

/-! ## Claims about the fallback scorer -/

/-- C9: the fallback scorer is a total function: on every pair of inputs it
returns a score in `[0, 10]` and a non-empty justification, and the division
it performs is by the fixed keyword-list size `24 ≠ 0`. -/
theorem mock_llm_total : ∀ resume_text vacancy_text : List Char,
    0 ≤ (analyze_with_mock_llm resume_text vacancy_text).score ∧
    (analyze_with_mock_llm resume_text vacancy_text).score ≤ 10 ∧
    (analyze_with_mock_llm resume_text vacancy_text).justification ≠ [] ∧
    key_techs.length = 24 ∧ key_techs.length ≠ 0 := by
  intro r v
  exact ⟨(mock_score_mem r v).1, (mock_score_mem r v).2,
    mock_llm_justification_ne_nil r v, by decide, by decide⟩

/-- C10: the output of the fallback scorer does not depend on the vacancy text:
the lower-cased vacancy is computed but never read. -/
theorem mock_llm_ignores_vacancy :
    ∀ (resume_text v1 v2 : List Char),
      analyze_with_mock_llm resume_text v1 = analyze_with_mock_llm resume_text v2 :=
  fun _ _ _ => rfl

/-- C4 (counterexample): on the marker resume the fallback score is `4.75`,
while the formula claimed in the specification — `4` keyword matches
substituted into `clamp((4/totalKeywords)*6 + 3 + 1, 0, 10)` with the actual
`totalKeywords = 24` — yields `5`: only 3 of the 5 markers are in the keyword
list. -/
theorem mock_llm_marker_score_refutes_spec :
    (analyze_with_mock_llm "senior docker kubernetes python магистр".toList "".toList).score
      = 19 / 4 ∧
    round2 (pyMin (pyMax ((4 : ℚ) / 24 * 6 + 3 + 1) 0) 10) = 5 ∧
    ((19 : ℚ) / 4) ≠ 5 := by
  refine ⟨?_, ?_, by norm_num⟩
  · have h1 : keyword_matches (pyLower "senior docker kubernetes python магистр".toList) = 3 := by
      decide
    have h2 : experience_level (pyLower "senior docker kubernetes python магистр".toList) = 3 := by
      decide
    have h3 : education_level (pyLower "senior docker kubernetes python магистр".toList) = 2 := by
      decide
    have h4 : key_techs.length = 24 := by decide
    rw [mock_score_def, h1, h2, h3, h4]
    norm_num [round2, pyMin, pyMax, Rat.floor_def']
  · norm_num [round2, pyMin, pyMax, Rat.floor_def']

/-- C4 (amended): the marker resume `"senior docker kubernetes python
магистр"` matches exactly 3 of the 24 keywords (`python`, `docker`,
`kubernetes`; the seniority and education markers are not keywords), so for
every vacancy the fallback score equals
`round2(clamp((3/24)*6 + 3 + 1, 0, 10)) = 4.75`. -/
theorem mock_llm_marker_score : ∀ vacancy_text : List Char,
    keyword_matches (pyLower "senior docker kubernetes python магистр".toList) = 3 ∧
    key_techs.length = 24 ∧
    (analyze_with_mock_llm "senior docker kubernetes python магистр".toList vacancy_text).score
      = round2 (pyMin (pyMax ((3 : ℚ) / 24 * 6 + 3 + 1) 0) 10) ∧
    (analyze_with_mock_llm "senior docker kubernetes python магистр".toList vacancy_text).score
      = 19 / 4 := by
  intro v
  have h1 : keyword_matches (pyLower "senior docker kubernetes python магистр".toList) = 3 := by
    decide
  have h2 : experience_level (pyLower "senior docker kubernetes python магистр".toList) = 3 := by
    decide
  have h3 : education_level (pyLower "senior docker kubernetes python магистр".toList) = 2 := by
    decide
  have h4 : key_techs.length = 24 := by decide
  refine ⟨h1, h4, ?_, ?_⟩ <;>
    · rw [mock_score_def, h1, h2, h3, h4]
      norm_num [round2, pyMin, pyMax, Rat.floor_def']

/-! ## Claims about ranking and the data generator -/

/-- C5: `select_top_candidates` returns `[]` on an empty batch, otherwise the
`min top_n len`-prefix of the stable descending sort by score (a permutation
of the input, sorted by `scoreGe`); on scores `[3, 9, 9, 1]` the two `9`
entries come first in their original relative order, then `3`, then `1`. -/
theorem select_top_candidates_spec :
    ∀ (results : List CandidateResult) (top_n : ℕ),
    select_top_candidates [] top_n = [] ∧
    select_top_candidates results top_n
      = (pySortedDesc results).take (min top_n results.length) ∧
    (pySortedDesc results).Perm results ∧
    (pySortedDesc results).Sorted scoreGe ∧
    select_top_candidates exampleResults 4
      = [⟨"b".toList, 9, []⟩, ⟨"c".toList, 9, []⟩, ⟨"a".toList, 3, []⟩,
         ⟨"d".toList, 1, []⟩] := by
  intro results top_n
  refine ⟨rfl, ?_, List.perm_insertionSort scoreGe results,
    List.sorted_insertionSort scoreGe results, by decide⟩
  cases results with
  | nil => simp [select_top_candidates, pySortedDesc]
  | cons a t => simp [select_top_candidates]

/-- C8: for every shuffle (an arbitrary permutation of the tier list), the
per-tier counts of the batch are `⌊count/5⌋` high, `⌊count/2⌋` medium and the
remainder low; for `count = 10` this is exactly `{high: 2, medium: 5,
low: 3}`. -/
theorem generate_resumes_tier_counts :
    ∀ (count : ℕ) (shuffled : List Tier), shuffled.Perm (qualityLevels count) →
    (shuffled.count Tier.high = count / 5 ∧
     shuffled.count Tier.medium = count / 2 ∧
     shuffled.count Tier.low = count - count / 5 - count / 2) ∧
    ((qualityLevels 10).count Tier.high = 2 ∧
     (qualityLevels 10).count Tier.medium = 5 ∧
     (qualityLevels 10).count Tier.low = 3) := by
  intro count shuffled hperm
  refine ⟨⟨?_, ?_, ?_⟩, by decide, by decide, by decide⟩ <;>
    · rw [hperm.count_eq]
      simp [qualityLevels, qualityDistribution, List.count_append, List.count_replicate]

/-- Witness for C8 at `count = 10` with the reversal as the shuffle. -/
theorem generate_resumes_tier_counts_witness :
    (((qualityLevels 10).reverse.count Tier.high = 10 / 5 ∧
      (qualityLevels 10).reverse.count Tier.medium = 10 / 2 ∧
      (qualityLevels 10).reverse.count Tier.low = 10 - 10 / 5 - 10 / 2) ∧
     ((qualityLevels 10).count Tier.high = 2 ∧
      (qualityLevels 10).count Tier.medium = 5 ∧
      (qualityLevels 10).count Tier.low = 3)) :=
  generate_resumes_tier_counts 10 (qualityLevels 10).reverse
    ((qualityLevels 10).reverse_perm)

/-! ## Dictionary lemmas -/

/-- Setting an absent key leaves it absent. -/
lemma dictGet_dictSet_none (kvs : List (String × Json)) (k : String) (v : Json)
    (h : dictGet kvs k = none) : dictGet (dictSet kvs k v) k = none := by
  induction kvs with
  | nil => simp [dictGet, dictSet]
  | cons p rest ih =>
    obtain ⟨k', v'⟩ := p
    have hrest : dictGet rest k = none := by
      cases hd : dictGet rest k with
      | some r => simp [dictGet, hd] at h
      | none => rfl
    have hk : ¬ k' = k := by
      intro hkk
      simp [dictGet, hrest, hkk] at h
    simp [dictSet, dictGet, hk, ih hrest]

/-- Setting a present key makes the lookup return the new value. -/
lemma dictGet_dictSet_self (kvs : List (String × Json)) (k : String) (v : Json)
    (h : (dictGet kvs k).isSome = true) : dictGet (dictSet kvs k v) k = some v := by
  induction kvs with
  | nil => simp [dictGet] at h
  | cons p rest ih =>
    obtain ⟨k', v'⟩ := p
    cases hrest : dictGet rest k with
    | some r =>
      have hs : dictGet (dictSet rest k v) k = some v := ih (by simp [hrest])
      simp [dictSet, dictGet, hs]
    | none =>
      by_cases hk : k' = k
      · have hnone := dictGet_dictSet_none rest k v hrest
        simp [dictSet, dictGet, hk, hnone]
      · simp [dictGet, hrest, hk] at h

/-- Setting one key does not change the lookup of another. -/
lemma dictGet_dictSet_ne (kvs : List (String × Json)) (k : String) (v : Json)
    (k₂ : String) (h : k₂ ≠ k) : dictGet (dictSet kvs k v) k₂ = dictGet kvs k₂ := by
  induction kvs with
  | nil => rfl
  | cons p rest ih =>
    obtain ⟨k', v'⟩ := p
    by_cases hk : k' = k
    · have hne : ¬ k' = k₂ := fun hkk => h (hkk.symm.trans hk)
      have hk2 : ¬ k = k₂ := fun hh => h hh.symm
      cases hd : dictGet rest k₂ with
      | some r => simp [dictSet, dictGet, ih, hd]
      | none => simp [dictSet, dictGet, ih, hd, hk, hne, hk2]
    · cases hd : dictGet rest k₂ with
      | some r => simp [dictSet, dictGet, ih, hd]
      | none => simp [dictSet, dictGet, ih, hd, hk]

/-- Replacing the score does not change `justificationOk`. -/
lemma justificationOk_dictSet_score (kvs : List (String × Json)) (v : Json) :
    justificationOk (dictSet kvs "score" v) = justificationOk kvs := by
  unfold justificationOk
  rw [dictGet_dictSet_ne kvs "score" v "justification" (by decide)]

/-- The score entry of the fallback dictionary. -/
lemma dictGet_mockDict_score (r v : List Char) :
    dictGet (mockDict r v) "score" = some (Json.num (analyze_with_mock_llm r v).score) := rfl

/-- The justification entry of the fallback dictionary. -/
lemma dictGet_mockDict_just (r v : List Char) :
    dictGet (mockDict r v) "justification"
      = some (Json.str (analyze_with_mock_llm r v).justification) := rfl

/-- The fallback dictionary always passes the justification check. -/
lemma justificationOk_mockDict (r v : List Char) : justificationOk (mockDict r v) = true := by
  unfold justificationOk
  rw [dictGet_mockDict_just]
  have h1 := mock_llm_justification_ne_nil r v
  have h2 := mock_llm_justification_ne_python r v
  simp [pyTruthy, isPythonStr, h1, h2]
  exact fun hh => h2 (hh.trans (by rfl))

/-- The validation gate of the analyzer keeps the fallback result unchanged. -/
lemma validateResult_mockDict (r v : List Char) :
    validateResult (mockDict r v) r v = mockDict r v := by
  unfold validateResult
  simp [dictGet_mockDict_score, justificationOk_mockDict]

/-- Whatever dictionary the LLM interface hands over, the validation gate
returns a dictionary with a present score and an acceptable justification. -/
lemma validateResult_ok (d : List (String × Json)) (r v : List Char) :
    justificationOk (validateResult d r v) = true ∧
    (dictGet (validateResult d r v) "score").isSome = true := by
  unfold validateResult
  cases h : ((dictGet d "score").isSome && justificationOk d) with
  | false =>
    simp only [h, Bool.false_eq_true, if_false]
    exact ⟨justificationOk_mockDict r v, by rw [dictGet_mockDict_score]; rfl⟩
  | true =>
    rw [Bool.and_eq_true] at h
    simp only [if_true]
    exact ⟨h.2, h.1⟩

/-! ## Behaviour of the combined analyze pipeline -/

/-- Characterisation of `justificationOk`. -/
lemma justificationOk_iff (d : List (String × Json)) :
    justificationOk d = true ↔
      ∃ j, dictGet d "justification" = some j ∧ pyTruthy j = true ∧ isPythonStr j = false := by
  unfold justificationOk
  cases h : dictGet d "justification" with
  | none => simp
  | some j => simp [Bool.and_eq_true, Bool.not_eq_true']

/-- The accepted dictionary still has a score, and its justification check
coincides with that of the parsed object. -/
lemma accepted_result_checks (pf : List Char → Option ℚ) (kvs : List (String × Json))
    (s : Json) (hs : dictGet kvs "score" = some s)
    (hcoerce : ∀ t, s = Json.str t → (pf t).isSome = true) :
    (dictGet (accepted_result pf kvs) "score").isSome = true ∧
    justificationOk (accepted_result pf kvs) = justificationOk kvs := by
  unfold accepted_result
  rw [hs]
  cases s with
  | str t =>
    obtain ⟨q, hq⟩ := Option.isSome_iff_exists.mp (hcoerce t rfl)
    dsimp only
    rw [hq]
    refine ⟨?_, justificationOk_dictSet_score kvs (Json.num q)⟩
    rw [dictGet_dictSet_self kvs "score" (Json.num q) (by simp [hs])]
    rfl
  | null => exact ⟨by simp [hs], rfl⟩
  | bool b => exact ⟨by simp [hs], rfl⟩
  | num q => exact ⟨by simp [hs], rfl⟩
  | arr xs => exact ⟨by simp [hs], rfl⟩
  | obj o => exact ⟨by simp [hs], rfl⟩

/-- The coerced score of an accepted dictionary with a string score. -/
lemma accepted_result_str (pf : List Char → Option ℚ) (kvs : List (String × Json))
    (t : List Char) (q : ℚ) (hs : dictGet kvs "score" = some (Json.str t))
    (hq : pf t = some q) : getScoreNum (accepted_result pf kvs) = some q := by
  unfold accepted_result getScoreNum
  rw [hs]
  dsimp only
  rw [hq]
  dsimp only
  rw [dictGet_dictSet_self kvs "score" (Json.num q) (by simp [hs])]

/-- When the whole gate passes, the LLM interface returns the accepted
dictionary. -/
lemma llmAnalyzeResume_accepted (jl : List Char → Option Json)
    (pf : List Char → Option ℚ) (resp r v : List Char)
    (kvs : List (String × Json)) (s : Json)
    (hkvs : jl (extractJson resp) = some (Json.obj kvs))
    (hs : dictGet kvs "score" = some s)
    (hj : (dictGet kvs "justification").isSome = true)
    (hcoerce : ∀ t, s = Json.str t → (pf t).isSome = true) :
    llmAnalyzeResume jl pf resp r v = accepted_result pf kvs := by
  obtain ⟨j, hj'⟩ := Option.isSome_iff_exists.mp hj
  unfold llmAnalyzeResume accepted_result
  rw [hkvs]
  dsimp only
  rw [hs, hj']
  dsimp only
  cases s with
  | str t =>
    obtain ⟨q, hq⟩ := Option.isSome_iff_exists.mp (hcoerce t rfl)
    dsimp only
    rw [hq]
  | null => rfl
  | bool b => rfl
  | num q => rfl
  | arr xs => rfl
  | obj o => rfl

/-- When the whole gate passes, the analyzer returns the accepted
dictionary. -/
lemma analyzer_accepts (jl : List Char → Option Json) (pf : List Char → Option ℚ)
    (resp r v : List Char) (kvs : List (String × Json)) (s : Json)
    (hkvs : jl (extractJson resp) = some (Json.obj kvs))
    (hs : dictGet kvs "score" = some s)
    (hcoerce : ∀ t, s = Json.str t → (pf t).isSome = true)
    (hjok : justificationOk kvs = true) :
    analyzerAnalyzeResume jl pf resp r v = accepted_result pf kvs := by
  obtain ⟨j, hj, hjt, hjp⟩ := (justificationOk_iff kvs).mp hjok
  have hllm := llmAnalyzeResume_accepted jl pf resp r v kvs s hkvs hs (by simp [hj]) hcoerce
  have hacc := accepted_result_checks pf kvs s hs hcoerce
  unfold analyzerAnalyzeResume
  rw [hllm]
  unfold validateResult
  rw [hacc.1, hacc.2, hjok]
  simp

/-- When the gate fails, the analyzer returns the fallback result. -/
lemma analyzer_rejects (jl : List Char → Option Json) (pf : List Char → Option ℚ)
    (resp r v : List Char)
    (hng : ¬ gate_passes pf (jl (extractJson resp))) :
    analyzerAnalyzeResume jl pf resp r v = mockDict r v := by
  unfold analyzerAnalyzeResume llmAnalyzeResume
  split
  · next kvs heq =>
    split
    · next s j hs hj =>
      have hjf : justificationOk kvs = false ∨ ∃ t, s = Json.str t ∧ pf t = none := by
        by_cases hjok : justificationOk kvs = true
        · right
          by_contra hno
          push_neg at hno
          refine hng ⟨kvs, heq, ⟨s, hs, ?_⟩, hjok⟩
          intro t ht
          cases hc : pf t with
          | none => exact absurd hc (hno t ht)
          | some q => rfl
        · exact Or.inl (Bool.not_eq_true _ ▸ hjok)
      split
      · next t =>
        split
        · next q hq =>
          have hjf2 : justificationOk kvs = false := by
            rcases hjf with h1 | ⟨t2, ht2, hpf2⟩
            · exact h1
            · cases ht2
              rw [hq] at hpf2
              exact absurd hpf2 (by simp)
          unfold validateResult
          rw [justificationOk_dictSet_score, hjf2]
          simp
        · next hq => exact validateResult_mockDict r v
      · next hnotstr =>
        have hjf2 : justificationOk kvs = false := by
          rcases hjf with h1 | ⟨t2, ht2, _⟩
          · exact h1
          · exact absurd ht2 (by intro hh; exact hnotstr t2 hh)
        unfold validateResult
        rw [hjf2]
        simp
    · next hnot => exact validateResult_mockDict r v
  · next hnot => exact validateResult_mockDict r v

/-! ## Substring lemmas for the extraction step -/

/-- The function `dropWhile` returns a suffix. -/
lemma dropWhile_split (p : Char → Bool) (l : List Char) :
    ∃ s, s ++ l.dropWhile p = l := by
  induction l with
  | nil => exact ⟨[], rfl⟩
  | cons a rest ih =>
    by_cases h : p a
    · obtain ⟨s, hs⟩ := ih
      exact ⟨a :: s, by simp [List.dropWhile_cons, h, hs]⟩
    · exact ⟨[], by simp [List.dropWhile_cons, h]⟩

/-- The trimmed text is a contiguous substring of the original. -/
lemma pyStrip_split (l : List Char) : ∃ s t, s ++ (pyStrip l ++ t) = l := by
  obtain ⟨s, hs⟩ := dropWhile_split isPySpace l
  obtain ⟨s2, hs2⟩ := dropWhile_split isPySpace (l.dropWhile isPySpace).reverse
  refine ⟨s, s2.reverse, ?_⟩
  have h3 : pyStrip l ++ s2.reverse = l.dropWhile isPySpace := by
    have h4 := congrArg List.reverse hs2
    simpa [List.reverse_append, pyStrip] using h4
  rw [h3, hs]

/-- The regex match is a contiguous substring of the response. -/
lemma braceSpan_split (cs s0 : List Char) (h : braceSpan cs = some s0) :
    ∃ s t, s ++ (s0 ++ t) = cs := by
  unfold braceSpan at h
  split_ifs at h with h1 h2
  have h3 := Option.some.inj h
  refine ⟨cs.take (cs.findIdx (· = '{')),
    (cs.drop (cs.findIdx (· = '{'))).drop
      (cs.length - 1 - cs.reverse.findIdx (· = '}') - cs.findIdx (· = '{') + 1), ?_⟩
  rw [← h3, List.take_append_drop, List.take_append_drop]

/-- The regex match starts with an opening brace and ends with a closing
brace: it runs from the first opening to the last closing brace. -/
lemma braceSpan_head_last (cs s0 : List Char) (h : braceSpan cs = some s0) :
    s0.head? = some '{' ∧ s0.getLast? = some '}' := by
  unfold braceSpan at h
  split_ifs at h with h1 h2
  have h3 := Option.some.inj h
  obtain ⟨hany1, hany2⟩ := h1
  have hilt : cs.findIdx (· = '{') < cs.length := by
    apply List.findIdx_lt_length_of_exists
    simpa [List.any_eq_true] using hany1
  have higet : cs[cs.findIdx (· = '{')] = '{' := by
    have := List.findIdx_getElem (w := hilt)
    simpa using this
  have hrlt : cs.reverse.findIdx (· = '}') < cs.reverse.length := by
    apply List.findIdx_lt_length_of_exists
    simpa [List.any_eq_true, List.mem_reverse] using hany2
  have hrget : cs.reverse[cs.reverse.findIdx (· = '}')] = '}' := by
    have := List.findIdx_getElem (w := hrlt)
    simpa using this
  rw [List.getElem_reverse] at hrget
  have hrlt2 : cs.reverse.findIdx (· = '}') < cs.length := by simpa using hrlt
  have hjlt : cs.length - 1 - cs.reverse.findIdx (· = '}') < cs.length := by omega
  constructor
  · rw [← h3, List.drop_eq_getElem_cons hilt, List.take_succ_cons]
    simp [higet]
  · rw [← h3]
    have hlen : ((cs.drop (cs.findIdx (· = '{'))).take
        (cs.length - 1 - cs.reverse.findIdx (· = '}') - cs.findIdx (· = '{') + 1)).length
        = cs.length - 1 - cs.reverse.findIdx (· = '}') - cs.findIdx (· = '{') + 1 := by
      simp only [List.length_take, List.length_drop]
      omega
    rw [List.getLast?_eq_getElem? _, hlen]
    have hidx : cs.length - 1 - cs.reverse.findIdx (· = '}') - cs.findIdx (· = '{') + 1 - 1
        = cs.length - 1 - cs.reverse.findIdx (· = '}') - cs.findIdx (· = '{') := by omega
    rw [hidx]
    simp only [List.getElem?_take, List.getElem?_drop]
    rw [if_pos (by omega)]
    rw [show cs.findIdx (· = '{')
        + (cs.length - 1 - cs.reverse.findIdx (· = '}') - cs.findIdx (· = '{'))
        = cs.length - 1 - cs.reverse.findIdx (· = '}') from by omega]
    rw [List.getElem?_eq_getElem hjlt]
    simp only [hrget]

/-- The string handed to `json.loads` is a contiguous substring of the raw
response. -/
lemma extractJson_split (resp : List Char) :
    ∃ s t, s ++ (extractJson resp ++ t) = resp := by
  unfold extractJson
  cases h : braceSpan resp with
  | none => simpa using pyStrip_split resp
  | some s0 =>
    simp only [Option.getD_some]
    exact braceSpan_split resp s0 h

/-! ## Claims about the analyzer pipeline -/

/-- C1 (amended): for every behaviour of the remote call, of `json.loads`
and of float coercion, the analyzer result always carries a `score` field and a
justification field that is truthy and not the placeholder `"Python"`;
whenever the fallback scorer produced the result, the score lies in
`[0, 10]` — but an accepted remote score is passed through without a range
check, so the returned score is only guaranteed to be in `[0, 10]` when the
remote score was (see the counterexample). -/
theorem analyze_resume_shape :
    ∀ (jsonLoads : List Char → Option Json) (pyFloat : List Char → Option ℚ)
      (response resume_text vacancy_text : List Char),
    justificationOk (analyzerAnalyzeResume jsonLoads pyFloat response
      resume_text vacancy_text) = true ∧
    (dictGet (analyzerAnalyzeResume jsonLoads pyFloat response
      resume_text vacancy_text) "score").isSome = true ∧
    0 ≤ (analyze_with_mock_llm resume_text vacancy_text).score ∧
    (analyze_with_mock_llm resume_text vacancy_text).score ≤ 10 := by
  intro jl pf resp r v
  exact ⟨(validateResult_ok _ r v).1, (validateResult_ok _ r v).2,
    (mock_score_mem r v).1, (mock_score_mem r v).2⟩

/-- C1 (counterexample): on the response `{"score": 99, "justification":
"ok"}` the analyzer returns score `99`, outside `[0, 10]`: the pipeline
never range-checks an accepted remote score. -/
theorem analyze_resume_score_unclamped :
    getScoreNum (analyzerAnalyzeResume cexJsonLoads (fun _ => none)
      cexResponse [] []) = some 99 ∧
    ¬ ((0 : ℚ) ≤ 99 ∧ (99 : ℚ) ≤ 10) := by
  constructor
  · rfl
  · intro h
    have := h.2
    norm_num at this

/-- C2 (amended): the primary result is accepted — and returned, with a
string-typed score replaced by its `float` coercion — iff the parse yielded
an object whose `score` field is present and (when it is a string) coercible,
and whose `justification` field is present, truthy and different from
`"Python"`; in every other case the fallback result is returned.
A non-string `score` (e.g. JSON `null`) is accepted without any numeric
check — see the counterexample. -/
theorem validation_gate :
    ∀ (jsonLoads : List Char → Option Json) (pyFloat : List Char → Option ℚ)
      (response resume_text vacancy_text : List Char),
    (∀ kvs, jsonLoads (extractJson response) = some (Json.obj kvs) →
       gate_passes pyFloat (jsonLoads (extractJson response)) →
       analyzerAnalyzeResume jsonLoads pyFloat response resume_text vacancy_text
         = accepted_result pyFloat kvs) ∧
    (¬ gate_passes pyFloat (jsonLoads (extractJson response)) →
       analyzerAnalyzeResume jsonLoads pyFloat response resume_text vacancy_text
         = mockDict resume_text vacancy_text) ∧
    (∀ kvs t q, jsonLoads (extractJson response) = some (Json.obj kvs) →
       dictGet kvs "score" = some (Json.str t) → pyFloat t = some q →
       justificationOk kvs = true →
       getScoreNum (analyzerAnalyzeResume jsonLoads pyFloat response
         resume_text vacancy_text) = some q) := by
  intro jl pf resp r v
  refine ⟨?_, analyzer_rejects jl pf resp r v, ?_⟩
  · intro kvs hkvs hg
    obtain ⟨kvs2, hk2, ⟨s, hs, hco⟩, hjok⟩ := hg
    rw [hkvs] at hk2
    simp only [Option.some.injEq, Json.obj.injEq] at hk2
    subst hk2
    exact analyzer_accepts jl pf resp r v kvs s hkvs hs hco hjok
  · intro kvs t q hkvs hs hq hjok
    have hco : ∀ t2, Json.str t = Json.str t2 → (pf t2).isSome = true := by
      intro t2 ht2
      cases ht2
      simp [hq]
    rw [analyzer_accepts jl pf resp r v kvs (Json.str t) hkvs hs hco hjok]
    exact accepted_result_str pf kvs t q hs hq

/-- Witness for C2: the string score `"7.5"` is accepted and coerced to the
numeric value `7.5`. -/
theorem validation_gate_witness :
    getScoreNum (analyzerAnalyzeResume cex75JsonLoads cex75PyFloat
      cex75Response [] []) = some (15 / 2) :=
  (validation_gate cex75JsonLoads cex75PyFloat cex75Response [] []).2.2
    [("score", Json.str "7.5".toList), ("justification", Json.str "ok".toList)]
    "7.5".toList (15 / 2) (by rfl) (by rfl) (by rfl) (by rfl)

/-- C2 (counterexample): on the response `{"score": null, "justification":
"ok"}` the parsed result is accepted — the returned dictionary still has the
JSON `null` score, which is not coercible to a real number, and it is not
the fallback result (whose score is always a number). -/
theorem validation_gate_null_score_accepted :
    scoreFieldIsNull (analyzerAnalyzeResume cex2JsonLoads (fun _ => none)
      cex2Response [] []) = true ∧
    scoreFieldIsNull (mockDict [] []) = false ∧
    analyzerAnalyzeResume cex2JsonLoads (fun _ => none) cex2Response [] []
      ≠ mockDict [] [] := by
  have hA : scoreFieldIsNull (analyzerAnalyzeResume cex2JsonLoads (fun _ => none)
      cex2Response [] []) = true := by rfl
  have hB : scoreFieldIsNull (mockDict [] []) = false := by rfl
  refine ⟨hA, hB, fun h => ?_⟩
  have h2 := congrArg scoreFieldIsNull h
  rw [hA, hB] at h2
  exact Bool.noConfusion h2

/-- C3: if the raw response contains no parsable JSON object — no
brace-delimited contiguous substring (one starting with an opening brace and
ending with a closing brace, the shape of every balanced object candidate,
and in particular of the span the regex extracts) parses, and the trimmed
whole response does not parse either — then the analyzer returns exactly the
result of the fallback scorer for the same inputs. A prose response such as
"Score: 7 out of 10" satisfies both hypotheses even though the fragment "7"
would parse: the code never consults substrings that are not brace-delimited. -/
theorem unparsable_falls_back :
    ∀ (jsonLoads : List Char → Option Json) (pyFloat : List Char → Option ℚ)
      (response resume_text vacancy_text : List Char),
    (∀ sub pre post, pre ++ (sub ++ post) = response →
       sub.head? = some '{' → sub.getLast? = some '}' →
       jsonLoads sub = none) →
    jsonLoads (pyStrip response) = none →
    analyzerAnalyzeResume jsonLoads pyFloat response resume_text vacancy_text
      = mockDict resume_text vacancy_text := by
  intro jl pf resp r v hbrace hstrip
  have hex : jl (extractJson resp) = none := by
    unfold extractJson
    cases hb : braceSpan resp with
    | none => simpa using hstrip
    | some s0 =>
      simp only [Option.getD_some]
      obtain ⟨pre, post, hsplit⟩ := braceSpan_split resp s0 hb
      obtain ⟨hh, hl⟩ := braceSpan_head_last resp s0 hb
      exact hbrace s0 pre post hsplit hh hl
  unfold analyzerAnalyzeResume llmAnalyzeResume
  rw [hex]
  exact validateResult_mockDict r v

/-- Witness for C3 on a response with no JSON in it at all. -/
theorem unparsable_falls_back_witness :
    analyzerAnalyzeResume (fun _ => none) (fun _ => none) "no json here".toList
      "резюме".toList "вакансия".toList
      = mockDict "резюме".toList "вакансия".toList :=
  unparsable_falls_back (fun _ => none) (fun _ => none) "no json here".toList
    "резюме".toList "вакансия".toList (fun _ _ _ _ _ _ => rfl) rfl

/-! ## The retry loop of `generate_text` -/

/-- If the first successful attempt inside the loop is `d` steps ahead, the
loop returns its trimmed text after `d + 1` calls, having slept the backoff
of every failed attempt before it. -/
lemma generateTextLoop_success (api : ℕ → Option (List Char)) (jitter : ℕ → ℚ) :
    ∀ (remaining attempt d : ℕ), d < remaining →
    (∀ j, j < d → attemptText api (attempt + j) = []) →
    attemptText api (attempt + d) ≠ [] →
    generateTextLoop api jitter attempt remaining =
      ⟨attemptText api (attempt + d), d + 1,
       (List.range d).map (fun j => (2 : ℚ) ^ (attempt + j) + jitter (attempt + j))⟩ := by
  intro remaining
  induction remaining with
  | zero => intro attempt d hd; exact absurd hd (Nat.not_lt_zero d)
  | succ rem ih =>
    intro attempt d hd hbefore hgood
    cases d with
    | zero =>
      have hne : (attemptText api attempt).isEmpty = false := by
        rw [List.isEmpty_eq_false]
        simpa using hgood
      simp [generateTextLoop, hne]
    | succ d' =>
      have hbad : attemptText api attempt = [] := by simpa using hbefore 0 (Nat.succ_pos d')
      have hemp : (attemptText api attempt).isEmpty = true := by simp [hbad]
      have ihh := ih (attempt + 1) d' (by omega)
        (fun j hj => by
          have := hbefore (j + 1) (by omega)
          rwa [show attempt + (j + 1) = attempt + 1 + j by omega] at this)
        (by rwa [show attempt + (d' + 1) = attempt + 1 + d' by omega] at hgood)
      simp only [generateTextLoop, hemp, if_true]
      rw [ihh]
      refine congrArg₂ (fun a b => GenResult.mk a (d' + 1 + 1) b) ?_ ?_
      · rw [show attempt + 1 + d' = attempt + (d' + 1) by omega]
      · rw [List.range_succ_eq_map, List.map_cons, List.map_map]
        refine congrArg₂ List.cons (by norm_num) ?_
        have hfun : ((fun j => (2 : ℚ) ^ (attempt + j) + jitter (attempt + j)) ∘ Nat.succ)
            = (fun j => (2 : ℚ) ^ (attempt + 1 + j) + jitter (attempt + 1 + j)) := by
          funext j
          simp only [Function.comp]
          rw [show attempt + Nat.succ j = attempt + 1 + j by omega]
        rw [hfun]

/-- If every attempt inside the loop fails, it returns the empty text after
exhausting all attempts, having slept after every one of them. -/
lemma generateTextLoop_allfail (api : ℕ → Option (List Char)) (jitter : ℕ → ℚ) :
    ∀ (remaining attempt : ℕ),
    (∀ j, j < remaining → attemptText api (attempt + j) = []) →
    generateTextLoop api jitter attempt remaining =
      ⟨[], remaining,
       (List.range remaining).map (fun j => (2 : ℚ) ^ (attempt + j) + jitter (attempt + j))⟩ := by
  intro remaining
  induction remaining with
  | zero => intro attempt _; simp [generateTextLoop]
  | succ rem ih =>
    intro attempt hbefore
    have hbad : attemptText api attempt = [] := by simpa using hbefore 0 (Nat.succ_pos rem)
    have hemp : (attemptText api attempt).isEmpty = true := by simp [hbad]
    have ihh := ih (attempt + 1)
      (fun j hj => by
        have := hbefore (j + 1) (by omega)
        rwa [show attempt + (j + 1) = attempt + 1 + j by omega] at this)
    simp only [generateTextLoop, hemp, if_true]
    rw [ihh]
    refine congrArg₂ (fun a b => GenResult.mk a (rem + 1) b) rfl ?_
    rw [List.range_succ_eq_map, List.map_cons, List.map_map]
    refine congrArg₂ List.cons (by norm_num) ?_
    have hfun : ((fun j => (2 : ℚ) ^ (attempt + j) + jitter (attempt + j)) ∘ Nat.succ)
        = (fun j => (2 : ℚ) ^ (attempt + 1 + j) + jitter (attempt + 1 + j)) := by
      funext j
      simp only [Function.comp]
      rw [show attempt + Nat.succ j = attempt + 1 + j by omega]
    rw [hfun]

/-- C6: for every behaviour of the remote endpoint and `max_retries ≥ 1`,
`generate_text` returns the trimmed text of the first attempt with a
non-whitespace response immediately (after exactly `i + 1` calls, no further
retries), and when all attempts fail or come back empty it returns the empty
string as a normal value after exactly `max_retries` calls — it never raises. -/
theorem generate_text_retry_contract :
    ∀ (api : ℕ → Option (List Char)) (jitter : ℕ → ℚ) (max_retries : ℕ),
    1 ≤ max_retries →
    (∀ i, i < max_retries → (∀ j, j < i → attemptText api j = []) →
      attemptText api i ≠ [] →
      (generateText api jitter max_retries).text = attemptText api i ∧
      (generateText api jitter max_retries).calls = i + 1) ∧
    ((∀ j, j < max_retries → attemptText api j = []) →
      (generateText api jitter max_retries).text = [] ∧
      (generateText api jitter max_retries).calls = max_retries) := by
  intro api jitter mr _
  constructor
  · intro i hi hb hg
    have h := generateTextLoop_success api jitter mr 0 i hi
      (fun j hj => by simpa using hb j hj) (by simpa using hg)
    rw [generateText, h]
    exact ⟨by simp, rfl⟩
  · intro hb
    have h := generateTextLoop_allfail api jitter mr 0
      (fun j hj => by simpa using hb j hj)
    rw [generateText, h]
    exact ⟨rfl, rfl⟩

/-- Witness for C6: first attempt fails, the second returns `" ok "`; the
call yields the trimmed `"ok"` after exactly 2 calls. -/
theorem generate_text_retry_contract_witness :
    (generateText genApiW genJitterW 3).text = attemptText genApiW 1 ∧
    (generateText genApiW genJitterW 3).calls = 1 + 1 :=
  (generate_text_retry_contract genApiW genJitterW 3 (by norm_num)).1 1
    (by norm_num)
    (fun j hj => by
      have hj0 : j = 0 := by omega
      subst hj0
      rfl)
    (by decide)

/-- C7: every failed attempt `i` — including the last one before giving up —
is followed by a wait of exactly `2 ^ i` seconds plus the sampled jitter in
`[0, 1)`, while a successful attempt adds no wait: on success at attempt `i`
the waits are exactly those of the `i` earlier failed attempts, and on
exhaustion they are those of all `max_retries` attempts. -/
theorem generate_text_backoff :
    ∀ (api : ℕ → Option (List Char)) (jitter : ℕ → ℚ) (max_retries : ℕ),
    (∀ j, 0 ≤ jitter j ∧ jitter j < 1) →
    (∀ i, i < max_retries → (∀ j, j < i → attemptText api j = []) →
      attemptText api i ≠ [] →
      (generateText api jitter max_retries).waits
        = (List.range i).map (fun j => (2 : ℚ) ^ j + jitter j)) ∧
    ((∀ j, j < max_retries → attemptText api j = []) →
      (generateText api jitter max_retries).waits
        = (List.range max_retries).map (fun j => (2 : ℚ) ^ j + jitter j)) ∧
    (∀ j, (2 : ℚ) ^ j ≤ (2 : ℚ) ^ j + jitter j ∧
      (2 : ℚ) ^ j + jitter j < (2 : ℚ) ^ j + 1) := by
  intro api jitter mr hjit
  refine ⟨?_, ?_, fun j => ⟨by linarith [(hjit j).1], by linarith [(hjit j).2]⟩⟩
  · intro i hi hb hg
    have h := generateTextLoop_success api jitter mr 0 i hi
      (fun j hj => by simpa using hb j hj) (by simpa using hg)
    rw [generateText, h]
    simp
  · intro hb
    have h := generateTextLoop_allfail api jitter mr 0
      (fun j hj => by simpa using hb j hj)
    rw [generateText, h]
    simp

/-- Witness for C7: with the success on attempt 1, exactly one wait was
slept, of length `2 ^ 0 + 1/2`. -/
theorem generate_text_backoff_witness :
    (generateText genApiW genJitterW 3).waits
      = (List.range 1).map (fun j => (2 : ℚ) ^ j + genJitterW j) :=
  (generate_text_backoff genApiW genJitterW 3
    (fun _ => by norm_num [genJitterW])).1 1
    (by norm_num)
    (fun j hj => by
      have hj0 : j = 0 := by omega
      subst hj0
      rfl)
    (by decide)
